import Mathlib

/-!
Verification of the BEACON Activity & Context Tracking Engine.

Shallow embedding of the core components:
* Event Bus (src/unnamed/part_002, class EventBus)
* Activity Monitor (src/src/features/character/Animator.js, class ActivityMonitor)
* Project Registry (src/src/core/ProjectRegistry.js)
* Reminder Engine (src/src/core/ReminderEngine.js)
* the storage collaborator operations those components call
  (src/src/core/Database.js)

Modelling conventions:
* JS millisecond timestamps are Int (Date.now values; Int keeps JS
  subtraction semantics without truncation).
* JS nullable / possibly-undefined fields are Option; JS truthiness
  tests on such fields (for example `if (!this._sessionStart)`) are
  Option.isSome tests.  Timestamp 0 would be falsy in JS; the model
  assumes real Date.now values, which are positive.
* Random uuids from Database._uuid are modelled by a fresh counter
  (nextId); theorems that need freshness carry the invariant that
  every stored id is below the counter.
* A JS handler that can raise is modelled by a static `throws` flag on
  the listener; EventBus.emit wraps every call in try/catch, so in the
  model a throwing listener is still recorded as delivered and the
  loop continues.  The `once` wrapper calls the inner listener and
  only afterwards unsubscribes itself, with no try/finally, so on a
  throw the unsubscription line is skipped: in the model the wrapper
  is removed only when `throws` is false.
-/

set_option maxHeartbeats 1000000

namespace Beacon

/-! Section: Event Bus (src/unnamed/part_002) -/

/-- A registered handler.  `lid` identifies the JS function object,
`throws` says whether a call to it raises, `isOnce` marks the
self-unsubscribing wrapper produced by `once`. -/
structure Listener where
  lid : Nat
  throws : Bool
  isOnce : Bool
deriving DecidableEq, Repr

/-- One record of the bounded history ring: `{ event, data, ts }`. -/
structure HistEntry where
  event : String
  data : Nat
  ts : Int
deriving DecidableEq, Repr

/-- EventBus state: `_listeners` (a Map event → insertion-ordered Set,
flattened to an insertion-ordered association list) and `_history`. -/
structure Bus where
  subs : List (String × Listener)
  history : List HistEntry
deriving DecidableEq, Repr

/-- `this._maxHistory = 200`. -/
def maxHistory : Nat := 200

/-- `on(event, listener)`: add to the Set for that event (a Set add of
an already-present member is a no-op). -/
def Bus.on (b : Bus) (ev : String) (l : Listener) : Bus :=
  if (ev, l) ∈ b.subs then b else { b with subs := b.subs ++ [(ev, l)] }

/-- `once(event, listener)`: registers the self-removing wrapper.  The
wrapper body is `listener(data); this.off(event, wrapper)` — the off
call is only reached when the inner listener returns normally. -/
def Bus.once (b : Bus) (ev : String) (l : Listener) : Bus :=
  b.on ev { l with isOnce := true }

/-- `off(event, listener)`: delete from the Set. -/
def Bus.off (b : Bus) (ev : String) (l : Listener) : Bus :=
  { b with subs := b.subs.filter (fun p => !(p == (ev, l))) }

/-- The listeners registered for `ev`, in insertion order. -/
def subsFor (b : Bus) (ev : String) : List Listener :=
  (b.subs.filter (fun p => p.1 == ev)).map (fun p => p.2)

/-- `emit(event, data)`: appends to history (evicting the oldest past
200), then calls every listener of the event inside try/catch.  The
second component lists the ids of the listeners that were invoked, in
order.  A `once` wrapper whose inner listener returned normally has
removed itself by the end of the call; one whose inner listener threw
skipped its `off` line, the error being swallowed by the emit loop. -/
def Bus.emit (b : Bus) (now : Int) (ev : String) (data : Nat) :
    Bus × List Nat :=
  let h1 := b.history ++ [⟨ev, data, now⟩]
  let h2 := if maxHistory < h1.length then h1.drop 1 else h1
  let delivered := (subsFor b ev).map Listener.lid
  let subs2 := b.subs.filter
    (fun p => !(p.1 == ev && p.2.isOnce && !p.2.throws))
  (⟨subs2, h2⟩, delivered)

/-- The once-registered, always-throwing listener of the C4
counterexample. -/
def demoOnce : Listener := ⟨1, true, true⟩

/-- A bus whose only registration is `demoOnce` via `once` on event
`z`. -/
def demoBus : Bus := Bus.once ⟨[], []⟩ "z" demoOnce

/-- C4 counterexample: a handler registered through `once` that throws
during its first delivery is NOT auto-unsubscribed — it is still
subscribed after the first publish, and a second publish of the same
event invokes it again (the wrapper body runs `listener(data)` before
`off`, with no try/finally, so the throw skips the unsubscription). -/
theorem once_throwing_handler_redelivered :
    ("z", demoOnce) ∈ (Bus.emit demoBus 0 "z" 7).1.subs
    ∧ (Bus.emit (Bus.emit demoBus 0 "z" 7).1 1 "z" 8).2 = [1] := by
  decide

/-- C4 (amended): a `once` handler is auto-unsubscribed after its
first delivery provided the handler returns normally, and then a
second publish does not invoke it; a `once` handler that throws during
delivery remains subscribed and is invoked again by the next publish
of the same event. -/
theorem once_unsubscribes_iff_no_throw (b : Bus) (ev : String)
    (l : Listener) (now now2 : Int) (d d2 : Nat)
    (hmem : (ev, l) ∈ b.subs) (honce : l.isOnce = true)
    (huniq : ∀ p ∈ b.subs, p.2.lid = l.lid → p.2 = l) :
    (l.throws = false →
      ((ev, l) ∉ (Bus.emit b now ev d).1.subs
        ∧ l.lid ∉ (Bus.emit (Bus.emit b now ev d).1 now2 ev d2).2))
    ∧ (l.throws = true →
      ((ev, l) ∈ (Bus.emit b now ev d).1.subs
        ∧ l.lid ∈ (Bus.emit (Bus.emit b now ev d).1 now2 ev d2).2)) := by
  constructor
  · intro hth
    constructor
    · intro hmem2
      have := (List.mem_filter.mp hmem2).2
      simp [honce, hth] at this
    · intro hdel
      simp only [Bus.emit, subsFor, List.map_map, List.mem_map] at hdel
      obtain ⟨p, hp, hlid⟩ := hdel
      have hp1 := List.mem_filter.mp hp
      have hp2 := List.mem_filter.mp hp1.1
      have hpev : p.1 = ev := by
        have := hp1.2
        simpa using this
      have hpl : p.2 = l := huniq p hp2.1 hlid
      have := hp2.2
      rw [hpev, hpl] at this
      simp [honce, hth] at this
  · intro hth
    have hkeep : (ev, l) ∈ (Bus.emit b now ev d).1.subs := by
      simp only [Bus.emit]
      refine List.mem_filter.mpr ⟨hmem, ?_⟩
      simp [hth]
    refine ⟨hkeep, ?_⟩
    simp only [Bus.emit, subsFor, List.map_map, List.mem_map]
    refine ⟨(ev, l), ?_, rfl⟩
    refine List.mem_filter.mpr ⟨hkeep, ?_⟩
    simp

/-- Closed witness for the amended C4 theorem, instantiating it at a
concrete bus holding a throwing `once` handler. -/
theorem once_unsubscribes_iff_no_throw_witness :
    ("z", demoOnce) ∈ demoBus.subs
    ∧ demoOnce.isOnce = true
    ∧ (("z", demoOnce) ∈ (Bus.emit demoBus 0 "z" 7).1.subs
        ∧ demoOnce.lid ∈ (Bus.emit (Bus.emit demoBus 0 "z" 7).1 1 "z" 8).2) := by
  refine ⟨by decide, by decide, ?_⟩
  exact (once_unsubscribes_iff_no_throw demoBus "z" demoOnce 0 1 7 8
    (by decide) (by decide) (by decide)).2 (by decide)

/-- C5: `publish` (emit) dispatches to every current subscriber of the
event — the invoked-listener list is exactly the registered listeners
of that event in order, independent of any `throws` flag (each call
sits in try/catch, so a throwing handler neither stops the loop nor
propagates to the publisher: emit always returns its pair normally).
In particular a listener registered after a throwing one still
receives the data. -/
theorem emit_delivers_to_all_listeners (b : Bus) (now : Int)
    (ev : String) (data : Nat) (l : Listener) (hmem : (ev, l) ∈ b.subs) :
    (Bus.emit b now ev data).2 = (subsFor b ev).map Listener.lid
    ∧ l.lid ∈ (Bus.emit b now ev data).2 := by
  refine ⟨rfl, ?_⟩
  simp only [Bus.emit, subsFor, List.map_map, List.mem_map]
  refine ⟨(ev, l), ?_, rfl⟩
  refine List.mem_filter.mpr ⟨hmem, by simp⟩

/-- Closed witness for C5: two independently registered handlers for
event `z`, the first of which throws; the second is still invoked. -/
theorem emit_delivers_to_all_listeners_witness :
    ("z", (⟨2, false, false⟩ : Listener)) ∈
      (Bus.on (Bus.on ⟨[], []⟩ "z" ⟨1, true, false⟩) "z" ⟨2, false, false⟩).subs
    ∧ (Bus.emit (Bus.on (Bus.on ⟨[], []⟩ "z" ⟨1, true, false⟩) "z"
        ⟨2, false, false⟩) 0 "z" 7).2 = [1, 2] := by
  refine ⟨by decide, ?_⟩
  have h := emit_delivers_to_all_listeners
    (Bus.on (Bus.on ⟨[], []⟩ "z" ⟨1, true, false⟩) "z" ⟨2, false, false⟩)
    0 "z" 7 ⟨2, false, false⟩ (by decide)
  rw [h.1]
  decide

/-! Section: Storage collaborator (src/src/core/Database.js) and data model -/

/-- Project status. -/
inductive PStatus
  | active
  | parked
deriving DecidableEq, Repr

/-- Project record (ProjectRegistry.js).  `id` is none for a not yet
saved draft; Database.saveProject assigns one. -/
structure Project where
  id : Option Nat
  name : String
  rootPath : Option String
  language : String
  gitRemote : Option String
  isGit : Bool
  status : PStatus
  totalTimeMs : Int
  lastActiveAt : Option Int
  createdAt : Int
  updatedAt : Int
  notes : String
  tags : List String
deriving DecidableEq, Repr

/-- Session record (ActivityMonitor).  While a session is open,
`endedAt` and `durationMs` are absent. -/
structure Session where
  id : Option Nat
  projectId : Option Nat
  startedAt : Int
  endedAt : Option Int
  durationMs : Option Int
  filesEdited : Nat
  peakMomentum : Nat
  stuckCount : Nat
deriving DecidableEq, Repr

/-- The in-memory cache of Database.js, restricted to the sections the
claims touch.  `projects` is a keyed object (uuid → record), modelled
as an insertion-ordered list; `nextId` models the fresh-uuid supply;
`streakUpdates` counts db.updateStreak calls. -/
structure Db where
  projects : List Project
  sessions : List Session
  streakUpdates : Nat
  nextId : Nat
deriving DecidableEq, Repr

/-- The empty store. -/
def db0 : Db := ⟨[], [], 0, 0⟩

/-- `db.getProject(id)`: key lookup in the projects object. -/
def getProject (db : Db) (pid : Nat) : Option Project :=
  db.projects.find? (fun p => p.id == some pid)

/-- `db.saveProject(project)`: assigns a fresh id when absent, stamps
`updatedAt = Date.now()`, and writes `projects[id] = project`
(replacing the record under an existing key, adding a new key
otherwise).  Returns the saved record, as the JS function does. -/
def saveProject (db : Db) (now : Int) (p : Project) : Db × Project :=
  match p.id with
  | none =>
      let p2 := { p with id := some db.nextId, updatedAt := now }
      ({ db with projects := db.projects ++ [p2], nextId := db.nextId + 1 }, p2)
  | some pid =>
      let p2 := { p with updatedAt := now }
      if db.projects.any (fun q => q.id == some pid) then
        ({ db with projects :=
            db.projects.map (fun q => if q.id == some pid then p2 else q) }, p2)
      else
        ({ db with projects := db.projects ++ [p2] }, p2)

/-- `db.addSession(session)`: assigns an id when absent, appends, and
keeps only the last 500 sessions.  Returns the saved record. -/
def addSession (db : Db) (s : Session) : Db × Session :=
  let s2 := if s.id.isNone then { s with id := some db.nextId } else s
  let next2 := if s.id.isNone then db.nextId + 1 else db.nextId
  let ss := db.sessions ++ [s2]
  let ss2 := if 500 < ss.length then ss.drop (ss.length - 500) else ss
  ({ db with sessions := ss2, nextId := next2 }, s2)

/-- `db.updateStreak()`: the consecutive-day counter update, recorded
here only as the fact that the call happened. -/
def updateStreak (db : Db) : Db := { db with streakUpdates := db.streakUpdates + 1 }

/-- `ProjectRegistry.addTimeToProject(id, ms)`: accumulates duration
onto the project and bumps `lastActiveAt`, then persists. -/
def addTimeToProject (db : Db) (pid : Nat) (ms : Int) (now : Int) : Db :=
  match getProject db pid with
  | some p =>
      (saveProject db now
        { p with totalTimeMs := p.totalTimeMs + ms, lastActiveAt := some now }).1
  | none => db

/-! Section: Activity Monitor (src/src/features/character/Animator.js,
class ActivityMonitor) -/

/-- `IDLE_THRESHOLD_MS = 5 * 60 * 1000`. -/
def IDLE_THRESHOLD_MS : Int := 5 * 60 * 1000

/-- `SESSION_GAP_MS = 10 * 60 * 1000`. -/
def SESSION_GAP_MS : Int := 10 * 60 * 1000

/-- `MOMENTUM_WINDOW_MS = 5 * 60 * 1000`. -/
def MOMENTUM_WINDOW_MS : Int := 5 * 60 * 1000

/-- Mutable monitor state: `_lastActiveAt`, `_sessionStart`,
`_sessionData`, `_pulses`, `_momentum`. -/
structure MonState where
  lastActiveAt : Option Int
  sessionStart : Option Int
  sessionData : Option Session
  pulses : List Int
  momentum : Nat
deriving DecidableEq, Repr

/-- Constructor state of ActivityMonitor. -/
def initMon : MonState := ⟨none, none, none, [], 0⟩

/-- Bus events emitted by the monitor (the payload fields the claims
mention). -/
inductive AEvent
  | momentumChanged (level : Nat)
  | activityPulse (momentum : Nat)
  | activityResumed
  | codingDetected (momentum : Nat)
  | activityIdle (idleMs : Int)
  | sessionStartEv (startedAt : Int)
  | sessionEndEv (s : Session)
deriving DecidableEq, Repr

/-- The fresh `_sessionData` object built by `_startSession`. -/
def newSessionData (now : Int) : Session := ⟨none, none, now, none, none, 0, 0, 0⟩

/-- `_startSession()`: sets `_sessionStart`/`_sessionData`, calls
`db.updateStreak()` and publishes session-start. -/
def startSession (s : MonState) (db : Db) (now : Int) :
    MonState × Db × List AEvent :=
  ({ s with sessionStart := some now, sessionData := some (newSessionData now) },
   updateStreak db, [AEvent.sessionStartEv now])

/-- `Math.min(5, Math.floor(pulses.length / 4))`. -/
def newMomentumOf (pulses : List Int) : Nat := min 5 (pulses.length / 4)

/-- `this._pulses.push(now)` followed by the trim
`this._pulses.filter(t => t > now - MOMENTUM_WINDOW_MS)`. -/
def trimmedPulses (s : MonState) (now : Int) : List Int :=
  (s.pulses ++ [now]).filter (fun t => decide (now - MOMENTUM_WINDOW_MS < t))

/-- `_onCodingActivity(now)`: appends a pulse, trims pulses at the
5-minute cutoff, recomputes momentum, publishes momentum-changed only
on a level transition (when the level is unchanged the JS code skips
the assignment; the stored value is the same either way, so the model
assigns unconditionally), publishes activity-pulse, handles the
was-idle branch (activity-resumed, possibly `_startSession`), and
finally publishes coding-detected. -/
def onCodingActivity (s : MonState) (db : Db) (now : Int) :
    MonState × Db × List AEvent :=
  let wasIdle : Bool :=
    match s.lastActiveAt with
    | none => true
    | some t => decide (SESSION_GAP_MS < now - t)
  let pulses1 := trimmedPulses s now
  let m1 := newMomentumOf pulses1
  let evsM : List AEvent :=
    if m1 = s.momentum then [] else [AEvent.momentumChanged m1]
  let s1 : MonState :=
    { s with lastActiveAt := some now, pulses := pulses1, momentum := m1 }
  let evsA := evsM ++ [AEvent.activityPulse m1]
  if wasIdle then
    let needNew : Bool :=
      match s1.sessionStart with
      | none => true
      | some st => decide (SESSION_GAP_MS * 2 < now - st)
    if needNew then
      let r := startSession s1 db now
      (r.1, r.2.1,
        evsA ++ [AEvent.activityResumed] ++ r.2.2 ++ [AEvent.codingDetected m1])
    else
      (s1, db, evsA ++ [AEvent.activityResumed] ++ [AEvent.codingDetected m1])
  else
    (s1, db, evsA ++ [AEvent.codingDetected m1])

/-- `_endSession()`: returns immediately when no session is open;
computes the duration; persists the session (tagged with the active
project id), adds its duration to that project, and publishes
session-end only when the duration strictly exceeds 60000 ms; finally
resets `_sessionStart`, `_sessionData`, `_momentum` and `_pulses`.
The fire-and-forget coaching request inside the persist branch only
ever feeds a later asynchronous display event; it is not part of this
synchronous call. -/
def endSession (s : MonState) (db : Db) (active : Option Nat) (now : Int) :
    MonState × Db × List AEvent :=
  match s.sessionStart, s.sessionData with
  | some st, some sd =>
      let durationMs := now - st
      let (db2, evs) :=
        if 60000 < durationMs then
          let sess : Session :=
            { sd with projectId := active, endedAt := some now,
                      durationMs := some durationMs, peakMomentum := s.momentum }
          let r := addSession db sess
          let dbB :=
            match active with
            | some pid => addTimeToProject r.1 pid durationMs now
            | none => r.1
          (dbB, [AEvent.sessionEndEv r.2])
        else (db, ([] : List AEvent))
      ({ s with sessionStart := none, sessionData := none,
                momentum := 0, pulses := [] }, db2, evs)
  | _, _ => (s, db, [])

/-- `_checkIdle(now)`: when idle beyond the 5-minute threshold,
publishes activity-idle, decays momentum by one level (never below 0),
and ends the session when the idle gap also exceeds 10 minutes.  The
pulse list is not touched on this branch. -/
def checkIdle (s : MonState) (db : Db) (active : Option Nat) (now : Int) :
    MonState × Db × List AEvent :=
  match s.lastActiveAt with
  | none => (s, db, [])
  | some la =>
      let idleMs := now - la
      if IDLE_THRESHOLD_MS < idleMs then
        let (m2, evs1) :=
          if 0 < s.momentum then
            (s.momentum - 1, [AEvent.momentumChanged (s.momentum - 1)])
          else (s.momentum, ([] : List AEvent))
        let s1 : MonState := { s with momentum := m2 }
        if SESSION_GAP_MS < idleMs ∧ s1.sessionStart.isSome then
          let r := endSession s1 db active now
          (r.1, r.2.1, AEvent.activityIdle idleMs :: (evs1 ++ r.2.2))
        else (s1, db, AEvent.activityIdle idleMs :: evs1)
      else (s, db, [])

/-- Iterated coding poll ticks from a given monitor state. -/
def runCoding (s : MonState) (db : Db) (ts : List Int) : MonState × Db :=
  ts.foldl (fun acc t =>
    ((onCodingActivity acc.1 acc.2 t).1, (onCodingActivity acc.1 acc.2 t).2.1))
    (s, db)

theorem onCodingActivity_pulses (s : MonState) (db : Db) (now : Int) :
    (onCodingActivity s db now).1.pulses = trimmedPulses s now := by
  simp only [onCodingActivity, startSession]
  split
  · split
    · rfl
    · rfl
  · rfl

theorem onCodingActivity_momentum (s : MonState) (db : Db) (now : Int) :
    (onCodingActivity s db now).1.momentum = newMomentumOf (trimmedPulses s now) := by
  simp only [onCodingActivity, startSession]
  split
  · split
    · rfl
    · rfl
  · rfl

theorem runCoding_append (s : MonState) (db : Db) (ts : List Int) (t : Int) :
    runCoding s db (ts ++ [t]) =
      ((onCodingActivity (runCoding s db ts).1 (runCoding s db ts).2 t).1,
       (onCodingActivity (runCoding s db ts).1 (runCoding s db ts).2 t).2.1) := by
  simp [runCoding, List.foldl_append]

theorem runCoding_state (ts : List Int)
    (hwin : ∀ t ∈ ts, ∀ u ∈ ts, u - MOMENTUM_WINDOW_MS < t) :
    (runCoding initMon db0 ts).1.pulses = ts
    ∧ (runCoding initMon db0 ts).1.momentum = newMomentumOf ts := by
  induction ts using List.reverseRecOn with
  | nil => exact ⟨rfl, rfl⟩
  | append_singleton ds t ih =>
      have hsub : ∀ x ∈ ds, x ∈ ds ++ [t] := fun x hx => List.mem_append_left _ hx
      have ihp := ih (fun a ha u hu => hwin a (hsub a ha) u (hsub u hu))
      have hfilter : trimmedPulses (runCoding initMon db0 ds).1 t = ds ++ [t] := by
        simp only [trimmedPulses]
        rw [ihp.1]
        apply List.filter_eq_self.mpr
        intro u hu
        exact decide_eq_true
          (hwin u hu t (List.mem_append_right _ (List.mem_singleton.mpr rfl)))
      rw [runCoding_append]
      constructor
      · rw [onCodingActivity_pulses, hfilter]
      · rw [onCodingActivity_momentum, hfilter]

/-- C1: starting from the initial monitor state, any sequence of
coding poll ticks whose pulse timestamps all lie within the trailing
5-minute window of one another leaves the momentum level equal to
min(5, ⌊pulseCount/4⌋) (so 16 such pulses give level 4 and a 17th
still-in-window pulse gives level ≥ 4), and on any single coding tick
a momentum-changed event is published exactly when the recomputed
level differs from the stored one — never on an unchanged level. -/
theorem momentum_level_formula_and_event_on_change (ts : List Int)
    (hwin : ∀ t ∈ ts, ∀ u ∈ ts, u - MOMENTUM_WINDOW_MS < t)
    (s : MonState) (db : Db) (now : Int) :
    (runCoding initMon db0 ts).1.momentum = min 5 (ts.length / 4)
    ∧ ((∃ l, AEvent.momentumChanged l ∈ (onCodingActivity s db now).2.2) ↔
        newMomentumOf (trimmedPulses s now) ≠ s.momentum) := by
  constructor
  · exact (runCoding_state ts hwin).2
  · by_cases hm : newMomentumOf (trimmedPulses s now) = s.momentum
    · simp only [onCodingActivity, startSession, if_pos hm]
      split
      · split
        · simp [hm]
        · simp [hm]
      · simp [hm]
    · simp only [onCodingActivity, startSession, if_neg hm]
      split
      · split
        · simp only [ne_eq, hm, not_false_eq_true, iff_true]
          exact ⟨newMomentumOf (trimmedPulses s now), by simp⟩
        · simp only [ne_eq, hm, not_false_eq_true, iff_true]
          exact ⟨newMomentumOf (trimmedPulses s now), by simp⟩
      · simp only [ne_eq, hm, not_false_eq_true, iff_true]
        exact ⟨newMomentumOf (trimmedPulses s now), by simp⟩

/-- The 16 pulse timestamps of the C1 witness, one per second. -/
def ts16 : List Int := (List.range 16).map (fun n => (n : Int) * 1000)

/-- The same with a 17th pulse one second later. -/
def ts17 : List Int := ts16 ++ [16000]

/-- Closed witness for C1: 16 pulses within 5 minutes give level 4;
the 17th pulse one second later (no earlier pulse expired) keeps the
level at 4 ≥ 4. -/
theorem momentum_level_formula_and_event_on_change_witness :
    (∀ t ∈ ts16, ∀ u ∈ ts16, u - MOMENTUM_WINDOW_MS < t)
    ∧ (runCoding initMon db0 ts16).1.momentum = 4
    ∧ (∀ t ∈ ts17, ∀ u ∈ ts17, u - MOMENTUM_WINDOW_MS < t)
    ∧ 4 ≤ (runCoding initMon db0 ts17).1.momentum := by
  refine ⟨by decide, ?_, by decide, ?_⟩
  · have h := (momentum_level_formula_and_event_on_change ts16 (by decide)
      initMon db0 0).1
    rw [h]; decide
  · have h := (momentum_level_formula_and_event_on_change ts17 (by decide)
      initMon db0 0).1
    rw [h]; decide

theorem mem_drop_append {α : Type} (l : List α) (a : α) (k : Nat)
    (hk : k ≤ l.length) : a ∈ (l ++ [a]).drop k := by
  rw [List.drop_append_of_le_length hk]
  exact List.mem_append_right _ (List.mem_singleton.mpr rfl)

theorem mem_capped_append {α : Type} (l : List α) (a : α) :
    a ∈ (if 500 < (l ++ [a]).length then
          (l ++ [a]).drop ((l ++ [a]).length - 500) else l ++ [a]) := by
  split
  · next h =>
      apply mem_drop_append
      simp only [List.length_append, List.length_singleton] at h ⊢
      omega
  · exact List.mem_append_right _ (List.mem_singleton.mpr rfl)

theorem addSession_mem (db : Db) (s : Session) :
    (addSession db s).2 ∈ (addSession db s).1.sessions := by
  simp only [addSession]
  by_cases hid : s.id.isNone = true
  · simp only [if_pos hid]
    exact mem_capped_append _ _
  · simp only [if_neg hid]
    exact mem_capped_append _ _

theorem addSession_projectId (db : Db) (s : Session) :
    (addSession db s).2.projectId = s.projectId := by
  simp only [addSession]
  split <;> rfl

theorem addSession_durationMs (db : Db) (s : Session) :
    (addSession db s).2.durationMs = s.durationMs := by
  simp only [addSession]
  split <;> rfl

theorem saveProject_sessions (db : Db) (now : Int) (p : Project) :
    (saveProject db now p).1.sessions = db.sessions := by
  simp only [saveProject]
  split
  · rfl
  · split <;> rfl

theorem addTimeToProject_sessions (db : Db) (pid : Nat) (ms now : Int) :
    (addTimeToProject db pid ms now).sessions = db.sessions := by
  simp only [addTimeToProject]
  split
  · rw [saveProject_sessions]
  · rfl

theorem getProject_addSession (db : Db) (s : Session) (pid : Nat) :
    getProject (addSession db s).1 pid = getProject db pid := rfl

theorem find?_map_replace {α : Type} (pred : α → Bool) (r : α)
    (hr : pred r = true) :
    ∀ l : List α,
      List.find? pred (l.map (fun q => if pred q then r else q)) =
        (List.find? pred l).map (fun _ => r)
  | [] => rfl
  | a :: l => by
      by_cases h : pred a = true
      · rw [List.map_cons, if_pos h, List.find?_cons_of_pos _ hr,
          List.find?_cons_of_pos _ h]
        rfl
      · rw [List.map_cons, if_neg h, List.find?_cons_of_neg _ h,
          List.find?_cons_of_neg _ h, find?_map_replace pred r hr l]

theorem getProject_saveProject_existing (db : Db) (now : Int) (p : Project)
    (pid : Nat) (hid : p.id = some pid)
    (hany : db.projects.any (fun q => q.id == some pid) = true) :
    getProject (saveProject db now p).1 pid = some { p with updatedAt := now } := by
  obtain ⟨i, nm, rp, lg, gr, ig, stt, tt, la, ca, ua, no, tg⟩ := p
  have hid2 : i = some pid := hid
  subst hid2
  simp only [saveProject, getProject]
  rw [if_pos hany]
  rw [find?_map_replace (fun q => q.id == some pid) _ (by simp) db.projects]
  have hsome : (db.projects.find? (fun q => q.id == some pid)).isSome := by
    rw [List.find?_isSome]
    exact List.any_eq_true.mp hany
  obtain ⟨x, hx⟩ := Option.isSome_iff_exists.mp hsome
  rw [hx]
  rfl

theorem getProject_addTimeToProject (db : Db) (pid : Nat) (ms now : Int) :
    getProject (addTimeToProject db pid ms now) pid =
      (getProject db pid).map (fun p =>
        { p with totalTimeMs := p.totalTimeMs + ms,
                 lastActiveAt := some now, updatedAt := now }) := by
  simp only [addTimeToProject]
  cases hfind : getProject db pid with
  | none => simpa using hfind
  | some p =>
      have hid : (p.id == some pid) = true := by
        have := List.find?_some hfind
        simpa using this
      have hid2 : p.id = some pid := by simpa using hid
      have hmem : p ∈ db.projects := List.mem_of_find?_eq_some hfind
      have hany : db.projects.any (fun q => q.id == some pid) = true :=
        List.any_eq_true.mpr ⟨p, hmem, hid⟩
      show getProject (saveProject db now
          { p with totalTimeMs := p.totalTimeMs + ms,
                   lastActiveAt := some now }).1 pid =
        Option.map (fun p =>
          { p with totalTimeMs := p.totalTimeMs + ms,
                   lastActiveAt := some now, updatedAt := now }) (some p)
      rw [getProject_saveProject_existing db now
        { p with totalTimeMs := p.totalTimeMs + ms, lastActiveAt := some now }
        pid hid2 hany]
      rfl

/-- C2: when `_endSession` runs on an open session, a computed
duration of exactly 60000 ms or less leaves the store untouched and
publishes nothing (the session is discarded); a duration strictly
above 60000 ms appends the session to the store tagged with the
currently active project id, publishes session-end with it, and adds
the duration to the active project record. -/
theorem endSession_duration_boundary (s : MonState) (db : Db)
    (active : Option Nat) (now st : Int) (sd : Session)
    (hst : s.sessionStart = some st) (hsd : s.sessionData = some sd) :
    (now - st ≤ 60000 →
      (endSession s db active now).2.1 = db
      ∧ (endSession s db active now).2.2 = [])
    ∧ (60000 < now - st →
      (∃ sess, (endSession s db active now).2.2 = [AEvent.sessionEndEv sess]
        ∧ sess.projectId = active
        ∧ sess.durationMs = some (now - st)
        ∧ sess ∈ (endSession s db active now).2.1.sessions)
      ∧ ∀ pid, active = some pid →
          getProject (endSession s db active now).2.1 pid =
            (getProject db pid).map (fun p =>
              { p with totalTimeMs := p.totalTimeMs + (now - st),
                       lastActiveAt := some now, updatedAt := now })) := by
  simp only [endSession, hst, hsd]
  constructor
  · intro hle
    rw [if_neg (by omega)]
    exact ⟨rfl, rfl⟩
  · intro hgt
    rw [if_pos hgt]
    constructor
    · refine ⟨(addSession db
        { sd with
          projectId := active
          endedAt := some now
          durationMs := some (now - st)
          peakMomentum := s.momentum }).2, rfl, ?_, ?_, ?_⟩
      · rw [addSession_projectId]
      · rw [addSession_durationMs]
      · cases active with
        | none => exact addSession_mem db _
        | some pid =>
            have h1 := addSession_mem db
              { sd with
                projectId := some pid
                endedAt := some now
                durationMs := some (now - st)
                peakMomentum := s.momentum }
            simpa [addTimeToProject_sessions] using h1
    · intro pid hpid
      subst hpid
      rw [getProject_addTimeToProject, getProject_addSession]

/-- C10: `_endSession` on an open session always resets the momentum
level to 0 and clears the pulse list, and the call publishes no
momentum-changed event (only, possibly, session-end) — a session
closing at a non-zero level drops to 0 silently. -/
theorem endSession_resets_momentum_silently (s : MonState) (db : Db)
    (active : Option Nat) (now st : Int) (sd : Session)
    (hst : s.sessionStart = some st) (hsd : s.sessionData = some sd) :
    (endSession s db active now).1.momentum = 0
    ∧ (endSession s db active now).1.pulses = []
    ∧ ∀ l, AEvent.momentumChanged l ∉ (endSession s db active now).2.2 := by
  refine ⟨?_, ?_, ?_⟩
  · simp only [endSession, hst, hsd]
  · simp only [endSession, hst, hsd]
  · intro l
    simp only [endSession, hst, hsd]
    split <;> simp

/-- Closed witness for C2 at the boundary: a session opened at 0 and
ended at 60000 is discarded; one ended at 60001 is persisted with the
active project id 5 and its duration added to that project. -/
theorem endSession_duration_boundary_witness :
    ((endSession ⟨some 1000, some 0, some (newSessionData 0), [], 2⟩
        db0 none 60000).2.1 = db0
      ∧ (endSession ⟨some 1000, some 0, some (newSessionData 0), [], 2⟩
        db0 none 60000).2.2 = [])
    ∧ (∃ sess, (endSession ⟨some 1000, some 0, some (newSessionData 0), [], 2⟩
        db0 (some 5) 60001).2.2 = [AEvent.sessionEndEv sess]
        ∧ sess.projectId = some 5
        ∧ sess.durationMs = some 60001
        ∧ sess ∈ (endSession ⟨some 1000, some 0, some (newSessionData 0), [], 2⟩
            db0 (some 5) 60001).2.1.sessions) := by
  constructor
  · exact (endSession_duration_boundary _ db0 none 60000 0 (newSessionData 0)
      rfl rfl).1 (by decide)
  · exact ((endSession_duration_boundary _ db0 (some 5) 60001 0
      (newSessionData 0) rfl rfl).2 (by decide)).1

/-- Closed witness for C10: a session open since 0 at momentum level 3
with two live pulses, ended at 120000: level drops to 0, pulses are
cleared, and no momentum-changed event is published. -/
theorem endSession_resets_momentum_silently_witness :
    (endSession ⟨some 1000, some 0, some (newSessionData 0), [500, 900], 3⟩
        db0 none 120000).1.momentum = 0
    ∧ (endSession ⟨some 1000, some 0, some (newSessionData 0), [500, 900], 3⟩
        db0 none 120000).1.pulses = []
    ∧ ∀ l, AEvent.momentumChanged l ∉
        (endSession ⟨some 1000, some 0, some (newSessionData 0), [500, 900], 3⟩
          db0 none 120000).2.2 :=
  endSession_resets_momentum_silently _ db0 none 120000 0 (newSessionData 0)
    rfl rfl

theorem endSession_pulses (s : MonState) (db : Db) (active : Option Nat)
    (now : Int) :
    (endSession s db active now).1.pulses = []
    ∨ (endSession s db active now).1.pulses = s.pulses := by
  simp only [endSession]
  split
  · split <;> exact Or.inl rfl
  all_goals exact Or.inr rfl

theorem checkIdle_pulses (s : MonState) (db : Db) (active : Option Nat)
    (now : Int) :
    (checkIdle s db active now).1.pulses = s.pulses
    ∨ (checkIdle s db active now).1.pulses = [] := by
  simp only [checkIdle]
  repeat' split
  all_goals
    first
      | exact Or.inl rfl
      | exact Or.symm (endSession_pulses _ db active now)

/-- The monitor state and store after one coding tick at time 0 from
the initial state: the C6 counterexample setup (one pulse at 0, a
session open since 0). -/
def c6s : MonState := (onCodingActivity initMon db0 0).1

/-- The store after that same tick. -/
def c6db : Db := (onCodingActivity initMon db0 0).2.1

/-- C6 counterexample: after an idle poll tick at now = 360000 (six
minutes after the single pulse at 0), the pulse timestamp 0 is still
in the pulse sequence although it is older than the 5-minute window of
that poll — `_checkIdle` never trims `_pulses`, so the invariant fails
on idle ticks. -/
theorem stale_pulse_survives_idle_poll :
    0 ∈ (checkIdle c6s c6db none 360000).1.pulses
    ∧ ¬ (∀ t ∈ (checkIdle c6s c6db none 360000).1.pulses,
          360000 - MOMENTUM_WINDOW_MS < t) := by decide

/-- C6 (amended): after every coding poll tick the pulse sequence
contains only timestamps within the last 5 minutes of that poll; an
idle poll tick never trims individual pulses — it leaves the pulse
sequence unchanged, except that ending the session clears it
entirely.  Stale pulses can therefore survive idle polls until the
next coding tick. -/
theorem pulses_trimmed_on_coding_ticks_only (s : MonState) (db : Db)
    (active : Option Nat) (now : Int) :
    (∀ t ∈ (onCodingActivity s db now).1.pulses, now - MOMENTUM_WINDOW_MS < t)
    ∧ ((checkIdle s db active now).1.pulses = s.pulses
        ∨ (checkIdle s db active now).1.pulses = []) := by
  constructor
  · intro t ht
    rw [onCodingActivity_pulses] at ht
    simp only [trimmedPulses, List.mem_filter] at ht
    exact of_decide_eq_true ht.2
  · exact checkIdle_pulses s db active now

/-! Section: Project Registry (src/src/core/ProjectRegistry.js) -/

/-- The `CODING_APPS` set of ProjectRegistry.js. -/
def CODING_APPS : List String :=
  ["code", "code - insiders", "cursor", "windsurf", "idea64", "webstorm64",
   "pycharm64", "clion64", "rider64", "devenv", "sublime_text", "atom",
   "notepad++", "vim", "nvim", "emacs", "windowsterminal", "cmd",
   "powershell", "pwsh", "wt", "wsl", "ubuntu", "bash", "gitbash",
   "git-bash", "gitextensions", "sourcetree", "gitkraken", "fork"]

/-- JS `String.prototype.toLowerCase` (identity outside the cased
range, as for the characters appearing here). -/
def lower (s : String) : String := String.mk (s.toList.map Char.toLower)

/-- Whether the first character list is an initial segment of the
second. -/
def isStartOf : List Char → List Char → Bool
  | [], _ => true
  | _ :: _, [] => false
  | a :: as, b :: bs => (a == b) && isStartOf as bs

/-- Whether the first character list occurs contiguously inside the
second. -/
def occursIn (sub : List Char) : List Char → Bool
  | [] => sub.isEmpty
  | b :: bs => isStartOf sub (b :: bs) || occursIn sub bs

/-- JS `String.prototype.includes`: substring containment. -/
def includes (hay sub : String) : Bool := occursIn sub.toList hay.toList

/-- Path separator on win32 (`path.basename` splits on both). -/
def isSep (c : Char) : Bool := (c == '/') || (c == '\\')

/-- Node `path.basename`: drops trailing separators, then returns the
final path segment. -/
def basename (s : String) : String :=
  String.mk (((s.toList.reverse.dropWhile isSep).takeWhile
    (fun c => !(isSep c))).reverse)

/-- The object emitted with the project-switched event.  The JS
emitter sends `{ project, prevId }`; consumers that read
`data.projectId` see `undefined` on that object, so the field is
carried here as an Option that the emitter fills with `none`. -/
structure SwitchPayload where
  project : Project
  prevId : Option Nat
  projectId : Option Nat
deriving DecidableEq, Repr

/-- Bus events emitted by the registry functions modelled here. -/
inductive RegEvent
  | projectDetected (project : Project)
  | projectSwitched (payload : SwitchPayload)
deriving DecidableEq, Repr

/-- `_identifyProjectFromTitle(title)`: first project whose name or
root-directory basename occurs (case-insensitively) in the title. -/
def identifyProjectFromTitle (db : Db) (title : String) : Option Project :=
  if title = "" then none
  else db.projects.find? (fun project =>
    includes (lower title) (lower project.name)
    || (match project.rootPath with
        | some rp => includes (lower title) (lower (basename rp))
        | none => false))

/-- `_setActiveProject(id)`: no-op when already active; otherwise
records the new active id, bumps the lastActiveAt of the project record,
persists it, and publishes project-switched with the saved project and
the previous id (and no `projectId` property on the payload). -/
def setActiveProject (reg : Option Nat) (db : Db) (now : Int) (id : Nat) :
    Option Nat × Db × List RegEvent :=
  if reg = some id then (reg, db, [])
  else
    match getProject db id with
    | some project =>
        let r := saveProject db now { project with lastActiveAt := some now }
        (some id, r.1, [RegEvent.projectSwitched ⟨r.2, reg, none⟩])
    | none => (some id, db, [])

/-- `onWindowChanged(processName, windowTitle)`: ignores non-coding
apps; otherwise resolves a project from the title and activates it.
Stored projects always carry an id (Database.saveProject assigns one),
so the id of a detected project is taken to be present. -/
def onWindowChanged (reg : Option Nat) (db : Db) (now : Int)
    (processName title : String) : Option Nat × Db × List RegEvent :=
  if CODING_APPS.contains (lower processName) then
    match identifyProjectFromTitle db title with
    | some detected =>
        match detected.id with
        | some did => setActiveProject reg db now did
        | none => (reg, db, [])
    | none => (reg, db, [])
  else (reg, db, [])

/-- `_findProjectByPath(dir)`: first stored project whose `rootPath`
equals the directory. -/
def findProjectByPath (db : Db) (dir : String) : Option Project :=
  db.projects.find? (fun p => p.rootPath == some dir)

/-- `_registerOrUpdateProject(dir, entries)`: dedup by absolute path —
update language/remote/timestamp of an existing record, or create and
persist a new one and publish project-detected.  `language`,
`gitRemote` and `isGit` are the values the JS code computes from the
directory entries and the git shell-out (external inputs here). -/
def registerOrUpdateProject (db : Db) (now : Int) (dir : String)
    (language : String) (gitRemote : Option String) (isGit : Bool) :
    Db × List RegEvent :=
  match findProjectByPath db dir with
  | some existing =>
      ((saveProject db now
        { existing with language := language, gitRemote := gitRemote }).1, [])
  | none =>
      let project : Project :=
        { id := none
          name := basename dir
          rootPath := some dir
          language := language
          gitRemote := gitRemote
          isGit := isGit
          status := PStatus.active
          totalTimeMs := 0
          lastActiveAt := none
          createdAt := now
          updatedAt := now
          notes := ""
          tags := [] }
      let r := saveProject db now project
      (r.1, [RegEvent.projectDetected r.2])

theorem find?_append_of_none {α : Type} (p : α → Bool) (l₁ l₂ : List α)
    (h : l₁.find? p = none) : (l₁ ++ l₂).find? p = l₂.find? p := by
  induction l₁ with
  | nil => rfl
  | cons a l ih =>
      by_cases ha : p a = true
      · rw [List.find?_cons_of_pos _ ha] at h
        exact absurd h (by simp)
      · rw [List.find?_cons_of_neg _ ha] at h
        rw [List.cons_append, List.find?_cons_of_neg _ ha]
        exact ih h

theorem map_eq_self_of_eq {α : Type} (f : α → α) :
    ∀ l : List α, (∀ x ∈ l, f x = x) → l.map f = l
  | [], _ => rfl
  | a :: l, h => by
      rw [List.map_cons, h a (List.mem_cons_self a l),
          map_eq_self_of_eq f l (fun x hx => h x (List.mem_cons_of_mem a hx))]

/-- C8: on a window signal, the active project id is unchanged when
the process name is not in the coding-tool set, or when the title
matches no known project name or root-directory basename
(case-insensitive substring).  When the title resolves to a project
whose id differs from the current active id, that id becomes active,
the project record is given `lastActiveAt = now` and persisted, and
project-switched is published carrying the saved project and the
previous id. -/
theorem onWindowChanged_matching (reg : Option Nat) (db : Db) (now : Int)
    (processName title : String) :
    (CODING_APPS.contains (lower processName) = false →
      onWindowChanged reg db now processName title = (reg, db, []))
    ∧ (identifyProjectFromTitle db title = none →
      onWindowChanged reg db now processName title = (reg, db, []))
    ∧ (∀ p did, identifyProjectFromTitle db title = some p →
        p.id = some did → reg ≠ some did →
        CODING_APPS.contains (lower processName) = true →
        ∃ q, getProject db did = some q
          ∧ onWindowChanged reg db now processName title =
              (some did,
               (saveProject db now { q with lastActiveAt := some now }).1,
               [RegEvent.projectSwitched
                 ⟨(saveProject db now { q with lastActiveAt := some now }).2,
                  reg, none⟩])) := by
  refine ⟨?_, ?_, ?_⟩
  · intro h
    simp only [onWindowChanged]
    rw [if_neg (by rw [h]; exact Bool.false_ne_true)]
  · intro h
    simp [onWindowChanged, h]
  · intro p did hfind hpid hne happs
    have hpmem : p ∈ db.projects := by
      simp only [identifyProjectFromTitle] at hfind
      split at hfind
      · exact absurd hfind (by simp)
      · exact List.mem_of_find?_eq_some hfind
    have hq : (db.projects.find? (fun q => q.id == some did)).isSome := by
      rw [List.find?_isSome]
      exact ⟨p, hpmem, by simp [hpid]⟩
    obtain ⟨q, hq2⟩ := Option.isSome_iff_exists.mp hq
    have hget : getProject db did = some q := hq2
    refine ⟨q, hget, ?_⟩
    simp [onWindowChanged, setActiveProject, happs, hfind, hpid, hget, hne]
    simpa using happs

/-- A stored project named beacon (the C8 witness data). -/
def beaconProj : Project :=
  ⟨some 1, "beacon", some "C:\\dev\\beacon", "JavaScript", none, true,
   PStatus.active, 0, none, 0, 0, "", []⟩

/-- A second stored project named widget-app. -/
def widgetProj : Project :=
  ⟨some 2, "widget-app", none, "TypeScript", none, false,
   PStatus.active, 0, none, 0, 0, "", []⟩

/-- The store holding both witness projects. -/
def c8db : Db := ⟨[beaconProj, widgetProj], [], 0, 3⟩

/-- Closed witness for C8: with projects beacon and widget-app, the
title emitted by a coding app resolves beacon to the active project,
and a later title from a non-coding process leaves it unchanged. -/
theorem onWindowChanged_matching_witness :
    (onWindowChanged none c8db 50 "Code" "beacon — Visual Studio Code").1 =
      some 1
    ∧ onWindowChanged (some 1) c8db 60 "chrome" "dancing cats — WebVideos" =
        (some 1, c8db, []) := by
  constructor
  · obtain ⟨q, hq, heq⟩ := (onWindowChanged_matching none c8db 50 "Code"
      "beacon — Visual Studio Code").2.2 beaconProj 1 (by decide) (by decide)
      (by decide) (by decide)
    rw [heq]
  · exact (onWindowChanged_matching (some 1) c8db 60 "chrome"
      "dancing cats — WebVideos").1 (by decide)

/-- C7: project registration is idempotent per rootPath.  For a path
not yet known, the first register-or-update call appends exactly one
record and publishes project-detected; a second call for the same
path creates no second record (the project count is unchanged and
exactly one stored project carries that rootPath), publishes nothing,
and updates the language of the existing record, remote and updated
timestamp. -/
theorem registerOrUpdate_idempotent (db : Db) (now1 now2 : Int) (dir : String)
    (lang1 lang2 : String) (rem1 rem2 : Option String) (git1 git2 : Bool)
    (hfresh : ∀ p ∈ db.projects, ∀ i, p.id = some i → i < db.nextId)
    (hnew : findProjectByPath db dir = none) :
    (∃ pr, (registerOrUpdateProject db now1 dir lang1 rem1 git1).2 =
        [RegEvent.projectDetected pr] ∧ pr.rootPath = some dir)
    ∧ (registerOrUpdateProject db now1 dir lang1 rem1 git1).1.projects.length =
        db.projects.length + 1
    ∧ (registerOrUpdateProject
        (registerOrUpdateProject db now1 dir lang1 rem1 git1).1
        now2 dir lang2 rem2 git2).2 = []
    ∧ (registerOrUpdateProject
        (registerOrUpdateProject db now1 dir lang1 rem1 git1).1
        now2 dir lang2 rem2 git2).1.projects.length =
        db.projects.length + 1
    ∧ ((registerOrUpdateProject
        (registerOrUpdateProject db now1 dir lang1 rem1 git1).1
        now2 dir lang2 rem2 git2).1.projects.filter
          (fun p => p.rootPath == some dir)).length = 1
    ∧ (∃ q, findProjectByPath (registerOrUpdateProject
          (registerOrUpdateProject db now1 dir lang1 rem1 git1).1
          now2 dir lang2 rem2 git2).1 dir = some q
        ∧ q.language = lang2 ∧ q.gitRemote = rem2 ∧ q.updatedAt = now2) := by
  have hnew0 : db.projects.find? (fun p => p.rootPath == some dir) = none := hnew
  have hold : ∀ x ∈ db.projects, ¬((x.rootPath == some dir) = true) := by
    intro x hx
    exact List.find?_eq_none.mp hnew0 x hx
  have h1 : registerOrUpdateProject db now1 dir lang1 rem1 git1 =
      ({ db with
          projects := db.projects ++
            [⟨some db.nextId, basename dir, some dir, lang1, rem1, git1,
              PStatus.active, 0, none, now1, now1, "", []⟩]
          nextId := db.nextId + 1 },
       [RegEvent.projectDetected
          ⟨some db.nextId, basename dir, some dir, lang1, rem1, git1,
           PStatus.active, 0, none, now1, now1, "", []⟩]) := by
    simp only [registerOrUpdateProject, hnew, saveProject]
  rw [h1]
  have hfind1 : findProjectByPath
      ({ db with
          projects := db.projects ++
            [⟨some db.nextId, basename dir, some dir, lang1, rem1, git1,
              PStatus.active, 0, none, now1, now1, "", []⟩]
          nextId := db.nextId + 1 } : Db) dir =
      some ⟨some db.nextId, basename dir, some dir, lang1, rem1, git1,
            PStatus.active, 0, none, now1, now1, "", []⟩ := by
    simp only [findProjectByPath]
    rw [find?_append_of_none _ _ _ hnew0]
    rw [List.find?_cons_of_pos _ (by simp)]
  have hany : (db.projects ++
        [(⟨some db.nextId, basename dir, some dir, lang1, rem1, git1,
          PStatus.active, 0, none, now1, now1, "", []⟩ : Project)]).any
      (fun q => q.id == some db.nextId) = true :=
    List.any_eq_true.mpr
      ⟨_, List.mem_append_right _ (List.mem_singleton.mpr rfl), by simp⟩
  have h2 : registerOrUpdateProject
      ({ db with
          projects := db.projects ++
            [⟨some db.nextId, basename dir, some dir, lang1, rem1, git1,
              PStatus.active, 0, none, now1, now1, "", []⟩]
          nextId := db.nextId + 1 } : Db) now2 dir lang2 rem2 git2 =
      ({ db with
          projects := (db.projects ++
            [(⟨some db.nextId, basename dir, some dir, lang1, rem1, git1,
              PStatus.active, 0, none, now1, now1, "", []⟩ : Project)]).map
            (fun q => if q.id == some db.nextId then
              (⟨some db.nextId, basename dir, some dir, lang2, rem2, git1,
               PStatus.active, 0, none, now1, now2, "", []⟩ : Project) else q)
          nextId := db.nextId + 1 }, []) := by
    simp only [registerOrUpdateProject, hfind1, saveProject]
    rw [if_pos hany]
  have hmap : (db.projects ++
        [(⟨some db.nextId, basename dir, some dir, lang1, rem1, git1,
          PStatus.active, 0, none, now1, now1, "", []⟩ : Project)]).map
        (fun q => if q.id == some db.nextId then
          (⟨some db.nextId, basename dir, some dir, lang2, rem2, git1,
            PStatus.active, 0, none, now1, now2, "", []⟩ : Project) else q) =
      db.projects ++
        [⟨some db.nextId, basename dir, some dir, lang2, rem2, git1,
          PStatus.active, 0, none, now1, now2, "", []⟩] := by
    rw [List.map_append]
    congr 1
    · apply map_eq_self_of_eq
      intro x hx
      cases hxid : x.id with
      | none => simp [hxid]
      | some i =>
          have hlt := hfresh x hx i hxid
          have hbeq : ((some i : Option Nat) == some db.nextId) = false := by
            simp
            omega
          simp [hxid, hbeq]
    · simp
  rw [h2, hmap]
  refine ⟨⟨⟨some db.nextId, basename dir, some dir, lang1, rem1, git1,
      PStatus.active, 0, none, now1, now1, "", []⟩, rfl, rfl⟩,
    by simp, rfl, by simp, ?_, ?_⟩
  · rw [List.filter_append, List.filter_eq_nil_iff.mpr hold]
    simp
  · refine ⟨⟨some db.nextId, basename dir, some dir, lang2, rem2, git1,
      PStatus.active, 0, none, now1, now2, "", []⟩, ?_, rfl, rfl, rfl⟩
    simp only [findProjectByPath]
    rw [find?_append_of_none _ _ _ hnew0]
    rw [List.find?_cons_of_pos _ (by simp)]

/-- Closed witness for C7: registering the directory twice in an
empty store creates one record on the first call and only updates it
on the second. -/
theorem registerOrUpdate_idempotent_witness :
    (∃ pr, (registerOrUpdateProject db0 10 "C:\\dev\\beacon" "Go" none true).2 =
        [RegEvent.projectDetected pr] ∧ pr.rootPath = some "C:\\dev\\beacon")
    ∧ (registerOrUpdateProject
        (registerOrUpdateProject db0 10 "C:\\dev\\beacon" "Go" none true).1
        20 "C:\\dev\\beacon" "Rust" (some "git@host:r.git") true).2 = []
    ∧ ((registerOrUpdateProject
        (registerOrUpdateProject db0 10 "C:\\dev\\beacon" "Go" none true).1
        20 "C:\\dev\\beacon" "Rust" (some "git@host:r.git") true).1.projects.filter
          (fun p => p.rootPath == some "C:\\dev\\beacon")).length = 1 := by
  have h := registerOrUpdate_idempotent db0 10 20 "C:\\dev\\beacon" "Go" "Rust"
    none (some "git@host:r.git") true true (by intro p hp; cases hp) (by rfl)
  exact ⟨h.1, h.2.2.1, h.2.2.2.2.1⟩

/-! Section: Reminder Engine (src/src/core/ReminderEngine.js) -/

/-- Reminder kinds. -/
inductive RType
  | oneShot
  | recurring
  | projectContext
deriving DecidableEq, Repr

/-- Reminder status. -/
inductive RStatus
  | active
  | completed
  | deleted
deriving DecidableEq, Repr

/-- Reminder record (schema in the ReminderEngine header comment).
`recurringTime` is the parsed HH:MM pair; `firedForSession` holds the
engine session token once a project-context reminder has fired. -/
structure Reminder where
  id : Nat
  rtype : RType
  text : String
  status : RStatus
  createdAt : Int
  fireAt : Option Int
  intervalMs : Option Int
  recurringTime : Option (Nat × Nat)
  lastFiredAt : Option Int
  projectId : Option Nat
  projectName : Option String
  firedForSession : Option String
  firedCount : Nat
deriving DecidableEq, Repr

/-- Bus events emitted by the engine. -/
inductive REvent
  | reminderFired (id : Nat) (rtype : RType) (text : String)
      (projectName : Option String)
  | reminderCompleted (r : Reminder)
deriving DecidableEq, Repr

/-- `_fire(reminder)`: publishes reminder-fired carrying
`{ id, type, text, projectName }`. -/
def fireEvent (r : Reminder) : REvent :=
  REvent.reminderFired r.id r.rtype r.text r.projectName

/-- The local-time Date operations the daily-time branch uses: the
calendar-day identifier of a timestamp (toDateString) and the target
timestamp of an HH:MM wall time on the current day (setHours). -/
structure Clock where
  dayOf : Int → Int
  targetToday : Int → Nat → Nat → Int

/-- One pass of `_checkTimeBased` over a single reminder: the
one-shot, interval and daily-time branches run in order on the same
record (db.updateReminder mutates the object the loop variable
references). -/
def checkReminder (ctx : Clock) (now : Int) (r : Reminder) :
    Reminder × List REvent :=
  let (r1, e1) :=
    if r.rtype = RType.oneShot then
      match r.fireAt with
      | some f =>
          if f ≤ now then
            let r2 := { r with status := RStatus.completed }
            (r2, [fireEvent r, REvent.reminderCompleted r2])
          else (r, ([] : List REvent))
      | none => (r, [])
    else (r, [])
  let (r2, e2) :=
    if r1.rtype = RType.recurring then
      match r1.intervalMs with
      | some k =>
          if k ≤ now - r1.lastFiredAt.getD r1.createdAt then
            ({ r1 with lastFiredAt := some now,
                       firedCount := r1.firedCount + 1 },
             [fireEvent r1])
          else (r1, ([] : List REvent))
      | none => (r1, [])
    else (r1, [])
  let (r3, e3) :=
    if r2.rtype = RType.recurring then
      match r2.recurringTime with
      | some (hh, mm) =>
          if ctx.targetToday now hh mm ≤ now
              ∧ r2.lastFiredAt.map ctx.dayOf ≠ some (ctx.dayOf now) then
            ({ r2 with lastFiredAt := some now,
                       firedCount := r2.firedCount + 1 },
             [fireEvent r2])
          else (r2, ([] : List REvent))
      | none => (r2, [])
    else (r2, [])
  (r3, e1 ++ e2 ++ e3)

/-- `_checkTimeBased()`: one timer pass over the stored reminders;
only the active ones are processed (getActiveReminders filters). -/
def checkTimeBased (ctx : Clock) (now : Int) (rs : List Reminder) :
    List Reminder × List REvent :=
  (rs.map (fun r =>
    if r.status = RStatus.active then (checkReminder ctx now r).1 else r),
   rs.foldr (fun r acc =>
     (if r.status = RStatus.active then (checkReminder ctx now r).2 else [])
       ++ acc) [])

/-- `_checkProjectContext(data)`: reads `data.projectId` (which is
undefined on the `{ project, prevId }` object the registry emits);
when present, every active project-context reminder bound to it that
has not yet fired for this engine session token fires and is stamped
with the token. -/
def checkProjectContext (sid : String) (now : Int) (pl : SwitchPayload)
    (rs : List Reminder) : List Reminder × List REvent :=
  match pl.projectId with
  | none => (rs, [])
  | some pid =>
      (rs.map (fun r =>
        if r.status = RStatus.active ∧ r.rtype = RType.projectContext
            ∧ r.projectId = some pid ∧ r.firedForSession ≠ some sid then
          { r with lastFiredAt := some now,
                   firedForSession := some sid,
                   firedCount := r.firedCount + 1 }
        else r),
       rs.foldr (fun r acc =>
         (if r.status = RStatus.active ∧ r.rtype = RType.projectContext
             ∧ r.projectId = some pid ∧ r.firedForSession ≠ some sid then
           [fireEvent r] else []) ++ acc) [])

/-- C9: an active recurring reminder with an interval (and no
daily-time field, per the one-meaningful-field rule of the schema)
fires on a check at `now` exactly when
now − max(lastFiredAt, createdAt) ≥ intervalMs (an absent lastFiredAt
reads as createdAt; the engine only ever sets lastFiredAt to a fire
time, which is at or after creation, hence the max hypothesis); on
firing, lastFiredAt becomes now and firedCount is incremented; the
reminder never transitions to completed, and a non-due check leaves
it untouched. -/
theorem recurring_interval_fire_condition (ctx : Clock) (now : Int)
    (r : Reminder) (k : Int)
    (hstatus : r.status = RStatus.active)
    (hty : r.rtype = RType.recurring)
    (hint : r.intervalMs = some k)
    (hrt : r.recurringTime = none)
    (hlf : ∀ t, r.lastFiredAt = some t → r.createdAt ≤ t) :
    (fireEvent r ∈ (checkReminder ctx now r).2 ↔
      k ≤ now - max (r.lastFiredAt.getD r.createdAt) r.createdAt)
    ∧ (k ≤ now - max (r.lastFiredAt.getD r.createdAt) r.createdAt →
        (checkReminder ctx now r).1.lastFiredAt = some now
        ∧ (checkReminder ctx now r).1.firedCount = r.firedCount + 1)
    ∧ (¬ k ≤ now - max (r.lastFiredAt.getD r.createdAt) r.createdAt →
        (checkReminder ctx now r).1 = r)
    ∧ (checkReminder ctx now r).1.status = RStatus.active := by
  have hmax : max (r.lastFiredAt.getD r.createdAt) r.createdAt =
      r.lastFiredAt.getD r.createdAt := by
    cases hl : r.lastFiredAt with
    | none => simp
    | some t => simp [max_eq_left (hlf t hl)]
  rw [hmax]
  by_cases hc : k ≤ now - r.lastFiredAt.getD r.createdAt
  · simp [checkReminder, hty, hint, hrt, hc, hstatus, fireEvent]
  · simp [checkReminder, hty, hint, hrt, hc, hstatus]

/-- The hourly reminder of the C9 witness, created at t0 = 0. -/
def demoRem : Reminder :=
  ⟨1, RType.recurring, "stretch", RStatus.active, 0, none, some 3600000,
   none, none, none, none, none, 0⟩

/-- A concrete Clock for the witness (unused by the interval branch). -/
def demoClock : Clock :=
  ⟨fun ms => ms / 86400000,
   fun _ hh mm => ((hh : Int) * 3600000 + (mm : Int) * 60000)⟩

/-- Closed witness for C9: the reminder created at 0 with interval
3600000 does not fire at 3599999 and does fire at 3600000, updating
lastFiredAt and firedCount and staying active. -/
theorem recurring_interval_fire_condition_witness :
    fireEvent demoRem ∉ (checkReminder demoClock 3599999 demoRem).2
    ∧ fireEvent demoRem ∈ (checkReminder demoClock 3600000 demoRem).2
    ∧ (checkReminder demoClock 3600000 demoRem).1.lastFiredAt = some 3600000
    ∧ (checkReminder demoClock 3600000 demoRem).1.firedCount = 1
    ∧ (checkReminder demoClock 3600000 demoRem).1.status = RStatus.active := by
  have hlf : ∀ t, demoRem.lastFiredAt = some t → demoRem.createdAt ≤ t := by
    intro t ht
    simp [demoRem] at ht
  have hearly := recurring_interval_fire_condition demoClock 3599999 demoRem
    3600000 rfl rfl rfl rfl hlf
  have hdue := recurring_interval_fire_condition demoClock 3600000 demoRem
    3600000 rfl rfl rfl rfl hlf
  refine ⟨?_, hdue.1.mpr (by decide), (hdue.2.1 (by decide)).1,
    (hdue.2.1 (by decide)).2, hdue.2.2.2⟩
  intro hmem
  have := hearly.1.mp hmem
  revert this
  decide

/-- The engine session token of the C3 scenario (assigned once per
app launch). -/
def c3sid : String := "s1"

/-- An active project-context reminder bound to project id 1, never
fired. -/
def c3rem : Reminder :=
  ⟨7, RType.projectContext, "check the board", RStatus.active, 0, none,
   none, none, none, some 1, some "beacon", none, 0⟩

/-- C3 (code bug): the project-switched payload is
`{ project, prevId }` with no `projectId` property, while
`_checkProjectContext` reads `data.projectId`; the read yields
undefined, so the handler returns without firing.  Concretely: the
switch to project 1 (the bound project of the reminder) produces a payload
whose `projectId` is absent, and running the context check on that
payload fires nothing and leaves the reminder untouched — the first
switch to the bound project does not fire the reminder, contrary to
the claim (and to the header comment of the engine itself). -/
theorem projectContext_reminder_never_fires :
    ∃ pl, (setActiveProject none c8db 100 1).2.2 = [RegEvent.projectSwitched pl]
      ∧ pl.project.id = some 1
      ∧ pl.projectId = none
      ∧ checkProjectContext c3sid 100 pl [c3rem] = ([c3rem], []) := by
  refine ⟨⟨{ beaconProj with lastActiveAt := some 100, updatedAt := 100 },
    none, none⟩, ?_, rfl, rfl, ?_⟩
  · decide
  · decide

end Beacon
